import Mathlib

/-!
Verification of the TCP AZS congestion-control module (src/src/tcp_azs.c).

The module keeps a per-connection private block `struct azs` inside the
socket and implements seven congestion-control hooks.  We embed the state
as a Lean structure and each hook as a pure state transformer.  Machine
integers: `rtt_min`, `rtt` and `snd_cwnd` are `u32` and are modelled as
`Nat` (every value the code ever stores in them is a small constant, a
previously stored value, or a positive `s32` sample, so no 32-bit
wrap-around can occur); the `s32` RTT sample is modelled as `Int`.
-/

/-- Per-connection AZS block, mirroring `struct azs` in src/src/tcp_azs.c.
The two `u8` fields are used only as flags (written 0/1, tested for
truthiness), so they are modelled as `Bool`.  The guard of
`tcp_azs_cong_avoid` dereferences a member spelled `ezs_en` that the struct
does not declare and that no statement ever assigns; following the spec's
description of this discrepancy we model it as one extra flag that simply
keeps whatever value the private area held before. -/
structure Azs where
  azs_en : Bool
  if_cong : Bool
  rtt_min : Nat
  rtt : Nat
  ezs_en : Bool
deriving DecidableEq, Repr

/-- The part of the connection the module touches: the transport's send
window `tp->snd_cwnd` plus the private AZS block `inet_csk_ca(sk)`. -/
structure Conn where
  snd_cwnd : Nat
  ca : Azs
deriving DecidableEq, Repr

/-- `TCP_AZS_INIT_RTT` : one second, in microseconds. -/
def TCP_AZS_INIT_RTT : Nat := 1000000

/-- `DEFAULT_AZS_WINDOW_SIZE` : the fixed target window. -/
def DEFAULT_AZS_WINDOW_SIZE : Nat := 65000

/-- `tcp_azs_init` : writes the four declared fields of `struct azs`; the
undeclared `ezs_en` flag retains the prior contents of the private area. -/
def tcp_azs_init (c : Conn) : Conn :=
  { c with ca := { c.ca with
      azs_en := true
      if_cong := false
      rtt_min := TCP_AZS_INIT_RTT
      rtt := TCP_AZS_INIT_RTT } }

/-- `tcp_azs_pkts_acked` : records a strictly positive RTT sample into
`rtt`, folds `rtt` into the running minimum `rtt_min`, and forces the send
window to the fixed target.  `cnt` is accepted and ignored, as in the C. -/
def tcp_azs_pkts_acked (c : Conn) (cnt : Nat) (rtt_us : Int) : Conn :=
  let a1 := if rtt_us > 0 then { c.ca with rtt := rtt_us.toNat } else c.ca
  let a2 := { a1 with rtt_min := min a1.rtt_min a1.rtt }
  { c with ca := a2, snd_cwnd := DEFAULT_AZS_WINDOW_SIZE }

/-- `tcp_azs_undo_cwnd` : body is a single return of the constant. -/
def tcp_azs_undo_cwnd (c : Conn) : Nat := DEFAULT_AZS_WINDOW_SIZE

/-- `tcp_azs_state` : sets `azs_en = 1`, ignoring the reported state. -/
def tcp_azs_state (c : Conn) (ca_state : Nat) : Conn :=
  { c with ca := { c.ca with azs_en := true } }

/-- `tcp_azs_cwnd_event` : forces the send window, ignoring the event. -/
def tcp_azs_cwnd_event (c : Conn) (event : Nat) : Conn :=
  { c with snd_cwnd := DEFAULT_AZS_WINDOW_SIZE }

/-- `tcp_azs_cong_avoid` : if the (never-assigned) `ezs_en` flag is clear,
delegate to `tcp_veno_cong_avoid` with the same `ack`/`acked`; otherwise
force the send window to the fixed target.  `tcp_veno_cong_avoid` is not
part of this repository; per the spec it is an opaque external fallback
strategy with the same hook signature, so it enters the embedding as the
function parameter `F`. -/
def tcp_azs_cong_avoid (F : Conn → Nat → Nat → Conn) (c : Conn)
    (ack acked : Nat) : Conn :=
  if c.ca.ezs_en = false then F c ack acked
  else { c with snd_cwnd := DEFAULT_AZS_WINDOW_SIZE }

/-- `tcp_azs_ssthresh` : body is a single return of the constant. -/
def tcp_azs_ssthresh (c : Conn) : Nat := DEFAULT_AZS_WINDOW_SIZE

/-- Modelled from the spec: `tcp_veno_cong_avoid` is external to this
repository.  The spec describes the fallback as an external collaborator
that may read the connection and replace the send window but owns its own
private state, so it does not modify this component's AZS block. -/
def FallbackPreservesCa (F : Conn → Nat → Nat → Conn) : Prop :=
  ∀ c ack acked, (F c ack acked).ca = c.ca

/-- One invocation of a stack hook (the state-mutating ones). -/
inductive Hook where
  | pktsAcked : Nat → Int → Hook
  | setState : Nat → Hook
  | cwndEvent : Nat → Hook
  | congAvoid : Nat → Nat → Hook
deriving Repr

/-- Dispatch one hook invocation, with fallback `F` for `congAvoid`. -/
def hookStep (F : Conn → Nat → Nat → Conn) (c : Conn) : Hook → Conn
  | Hook.pktsAcked cnt r => tcp_azs_pkts_acked c cnt r
  | Hook.setState st => tcp_azs_state c st
  | Hook.cwndEvent ev => tcp_azs_cwnd_event c ev
  | Hook.congAvoid a k => tcp_azs_cong_avoid F c a k

/-- Run a sequence of hook invocations. -/
def hookRun (F : Conn → Nat → Nat → Conn) (c : Conn) (ops : List Hook) : Conn :=
  ops.foldl (hookStep F) c

/-- States reachable from `tcp_azs_init` by hook sequences. -/
def ReachableFrom (F : Conn → Nat → Nat → Conn) (c : Conn) : Prop :=
  ∃ c0 ops, c = hookRun F (tcp_azs_init c0) ops

/-- Running `tcp_azs_pkts_acked` over a list of `(cnt, rtt_us)` samples. -/
def runAcked (c : Conn) (l : List (Nat × Int)) : Conn :=
  l.foldl (fun s p => tcp_azs_pkts_acked s p.1 p.2) c

lemma runAcked_cons (c : Conn) (p : Nat × Int) (t : List (Nat × Int)) :
    runAcked c (p :: t) = runAcked (tcp_azs_pkts_acked c p.1 p.2) t := rfl

lemma tcp_azs_pkts_acked_pos (c : Conn) (cnt : Nat) (r : Int) (hr : 0 < r) :
    (tcp_azs_pkts_acked c cnt r).ca.rtt = r.toNat
    ∧ (tcp_azs_pkts_acked c cnt r).ca.rtt_min = min c.ca.rtt_min r.toNat := by
  constructor <;> simp [tcp_azs_pkts_acked, hr]

lemma runAcked_rtt_min_eq (l : List (Nat × Int)) :
    ∀ c : Conn, (∀ p ∈ l, 0 < p.2) →
      (runAcked c l).ca.rtt_min
        = (l.map fun p => p.2.toNat).foldl min c.ca.rtt_min := by
  induction l with
  | nil => intro c _; rfl
  | cons p t ih =>
      intro c h
      have hp : 0 < p.2 := h p (List.mem_cons_self p t)
      have ht : ∀ q ∈ t, 0 < q.2 := fun q hq => h q (List.mem_cons_of_mem p hq)
      rw [runAcked_cons, ih _ ht, (tcp_azs_pkts_acked_pos c p.1 p.2 hp).2]
      simp

lemma runAcked_rtt_eq (l : List (Nat × Int)) :
    ∀ (c : Conn) (h : ∀ p ∈ l, 0 < p.2) (hne : l ≠ []),
      (runAcked c l).ca.rtt = (l.getLast hne).2.toNat := by
  induction l with
  | nil => intro c _ hne; exact absurd rfl hne
  | cons p t ih =>
      intro c h hne
      cases t with
      | nil =>
          have hp : 0 < p.2 := h p (List.mem_cons_self p [])
          simpa [runAcked_cons, runAcked]
            using (tcp_azs_pkts_acked_pos c p.1 p.2 hp).1
      | cons q t2 =>
          have ht : ∀ r ∈ q :: t2, 0 < r.2 :=
            fun r hr => h r (List.mem_cons_of_mem p hr)
          rw [runAcked_cons, ih _ ht (List.cons_ne_nil q t2),
            List.getLast_cons (List.cons_ne_nil q t2)]

lemma azs_inv_step (F : Conn → Nat → Nat → Conn) (hF : FallbackPreservesCa F)
    (c : Conn) (h1 : c.ca.rtt_min ≤ c.ca.rtt) (h2 : c.ca.if_cong = false)
    (op : Hook) :
    (hookStep F c op).ca.rtt_min ≤ (hookStep F c op).ca.rtt
    ∧ (hookStep F c op).ca.if_cong = false := by
  cases op with
  | pktsAcked cnt r =>
      by_cases hr : r > 0 <;>
        simp [hookStep, tcp_azs_pkts_acked, hr, min_le_right, h2]
  | setState st => exact ⟨h1, h2⟩
  | cwndEvent ev => exact ⟨h1, h2⟩
  | congAvoid a k =>
      by_cases he : c.ca.ezs_en = false
      · simpa [hookStep, tcp_azs_cong_avoid, he, hF c a k] using ⟨h1, h2⟩
      · simpa [hookStep, tcp_azs_cong_avoid, he] using ⟨h1, h2⟩

lemma azs_inv_run (F : Conn → Nat → Nat → Conn) (hF : FallbackPreservesCa F)
    (ops : List Hook) :
    ∀ c : Conn, c.ca.rtt_min ≤ c.ca.rtt → c.ca.if_cong = false →
      (hookRun F c ops).ca.rtt_min ≤ (hookRun F c ops).ca.rtt
      ∧ (hookRun F c ops).ca.if_cong = false := by
  induction ops with
  | nil => intro c h1 h2; exact ⟨h1, h2⟩
  | cons op t ih =>
      intro c h1 h2
      have hs := azs_inv_step F hF c h1 h2 op
      exact ih (hookStep F c op) hs.1 hs.2

lemma azs_reachable_inv (F : Conn → Nat → Nat → Conn)
    (hF : FallbackPreservesCa F) (c : Conn) (hc : ReachableFrom F c) :
    c.ca.rtt_min ≤ c.ca.rtt ∧ c.ca.if_cong = false := by
  obtain ⟨c0, ops, rfl⟩ := hc
  exact azs_inv_run F hF ops (tcp_azs_init c0) (le_refl _) rfl

lemma rttMin_step_le (F : Conn → Nat → Nat → Conn)
    (hF : FallbackPreservesCa F) (c : Conn) (op : Hook) :
    (hookStep F c op).ca.rtt_min ≤ c.ca.rtt_min := by
  cases op with
  | pktsAcked cnt r =>
      by_cases hr : r > 0 <;>
        simp [hookStep, tcp_azs_pkts_acked, hr, min_le_left]
  | setState st => exact le_refl _
  | cwndEvent ev => exact le_refl _
  | congAvoid a k =>
      by_cases he : c.ca.ezs_en = false
      · simp [hookStep, tcp_azs_cong_avoid, he, hF c a k]
      · simp [hookStep, tcp_azs_cong_avoid, he]

/-- A concrete fallback that leaves the connection untouched. -/
def Fid : Conn → Nat → Nat → Conn := fun c _ _ => c

lemma Fid_preserves : FallbackPreservesCa Fid := fun _ _ _ => rfl

/-- A concrete pre-init connection (arbitrary garbage contents). -/
def c0X : Conn :=
  { snd_cwnd := 10
    ca := { azs_en := false, if_cong := true, rtt_min := 5, rtt := 3, ezs_en := true } }

/-- The state right after `tcp_azs_init` on `c0X`. -/
def cInit : Conn := tcp_azs_init c0X

lemma cInit_reachable : ReachableFrom Fid cInit := ⟨c0X, [], rfl⟩

/-- C6: after `tcp_azs_init`, for every prior state, `rtt` and `rtt_min`
both equal `TCP_AZS_INIT_RTT` (which is 1000000 microseconds, one second),
the override flag `azs_en` is set and the congestion flag `if_cong` is
clear. -/
theorem tcp_azs_init_resets (c : Conn) :
    (tcp_azs_init c).ca.rtt = TCP_AZS_INIT_RTT
    ∧ (tcp_azs_init c).ca.rtt_min = TCP_AZS_INIT_RTT
    ∧ (tcp_azs_init c).ca.azs_en = true
    ∧ (tcp_azs_init c).ca.if_cong = false
    ∧ TCP_AZS_INIT_RTT = 1000000 :=
  ⟨rfl, rfl, rfl, rfl, rfl⟩

/-- C8: `tcp_azs_undo_cwnd` and `tcp_azs_ssthresh` return exactly
`DEFAULT_AZS_WINDOW_SIZE` (65000) in every state; their embeddings are
pure functions on the state, matching the C bodies, which contain no
assignment. -/
theorem tcp_azs_fixed_returns (c : Conn) :
    tcp_azs_undo_cwnd c = DEFAULT_AZS_WINDOW_SIZE
    ∧ tcp_azs_ssthresh c = DEFAULT_AZS_WINDOW_SIZE
    ∧ DEFAULT_AZS_WINDOW_SIZE = 65000 :=
  ⟨rfl, rfl, rfl⟩

/-- C10: for every reported stack state and every prior connection state,
`tcp_azs_state` sets the override flag `azs_en` to 1. -/
theorem tcp_azs_state_enables_override (c : Conn) (ca_state : Nat) :
    (tcp_azs_state c ca_state).ca.azs_en = true := rfl

/-- C7 counterexample: at the concrete post-init state, a state-change
notification with `new_state = 2` leaves `if_cong` clear, refuting the
claim that `tcp_azs_state` sets the congestion flag to true. -/
theorem tcp_azs_state_if_cong_counterexample :
    (tcp_azs_state cInit 2).ca.if_cong ≠ true := by decide

/-- C7 amended: for every reported stack state and every prior connection
state, `tcp_azs_state` leaves `if_cong` unchanged (the body writes only
the override flag `azs_en`). -/
theorem tcp_azs_state_preserves_if_cong (c : Conn) (new_state : Nat) :
    (tcp_azs_state c new_state).ca.if_cong = c.ca.if_cong := rfl

/-- C9: in every state reachable from `tcp_azs_init` by hook sequences
(with any fallback that keeps out of the AZS block), `if_cong` is still
false: no hook ever writes it after init clears it. -/
theorem tcp_azs_if_cong_stays_false (F : Conn → Nat → Nat → Conn)
    (hF : FallbackPreservesCa F) (c : Conn) (hc : ReachableFrom F c) :
    c.ca.if_cong = false :=
  (azs_reachable_inv F hF c hc).2

/-- C9 witness: instantiated at the identity fallback and the concrete
post-init state. -/
theorem tcp_azs_if_cong_stays_false_witness : cInit.ca.if_cong = false :=
  tcp_azs_if_cong_stays_false Fid Fid_preserves cInit cInit_reachable

/-- C1 failing input: memory whose never-assigned `ezs_en` flag is clear. -/
def c1Pre : Conn :=
  { snd_cwnd := 100
    ca := { azs_en := false, if_cong := false, rtt_min := 0, rtt := 0, ezs_en := false } }

/-- C1 evaluation at the failing input: after `tcp_azs_init` the override
flag `azs_en` is set, yet `tcp_azs_cong_avoid` delegates to the fallback
(here one that leaves the connection untouched) and the send window stays
at 100 instead of being set to `DEFAULT_AZS_WINDOW_SIZE`, because the
guard reads the never-assigned `ezs_en` instead of `azs_en`. -/
theorem tcp_azs_cong_avoid_override_bug :
    (tcp_azs_init c1Pre).ca.azs_en = true
    ∧ (tcp_azs_cong_avoid Fid (tcp_azs_init c1Pre) 7 3).snd_cwnd = 100
    ∧ (tcp_azs_cong_avoid Fid (tcp_azs_init c1Pre) 7 3).snd_cwnd
        ≠ DEFAULT_AZS_WINDOW_SIZE := by
  refine ⟨rfl, rfl, ?_⟩ ; decide

/-- C2 failing input: override disabled (`azs_en = 0`) while the
never-assigned `ezs_en` flag happens to be nonzero. -/
def c2Pre : Conn :=
  { snd_cwnd := 100
    ca := { azs_en := false, if_cong := false,
            rtt_min := TCP_AZS_INIT_RTT, rtt := TCP_AZS_INIT_RTT, ezs_en := true } }

/-- A concrete fallback that marks the window, to detect delegation. -/
def Fmark : Conn → Nat → Nat → Conn := fun c _ _ => { c with snd_cwnd := 7 }

/-- C2 evaluation at the failing input: with the override flag `azs_en`
clear, `tcp_azs_cong_avoid` does not delegate to the fallback (which would
have produced window 7) but writes the window to 65000 itself, because the
guard reads the never-assigned `ezs_en` instead of `azs_en`. -/
theorem tcp_azs_cong_avoid_delegation_bug :
    c2Pre.ca.azs_en = false
    ∧ tcp_azs_cong_avoid Fmark c2Pre 7 3 ≠ Fmark c2Pre 7 3
    ∧ (tcp_azs_cong_avoid Fmark c2Pre 7 3).snd_cwnd = DEFAULT_AZS_WINDOW_SIZE := by
  refine ⟨rfl, ?_, rfl⟩ ; decide

/-- C3: starting from the state produced by `tcp_azs_init`, after running
`tcp_azs_pkts_acked` over any nonempty list of `(cnt, rtt_us)` samples
with every sample strictly positive, `rtt` is the last sample and
`rtt_min` is the minimum of `TCP_AZS_INIT_RTT` and all samples so far
(instantiating the list with each prefix gives the claim after every
intermediate call). -/
theorem tcp_azs_rtt_tracking (c0 : Conn) (l : List (Nat × Int))
    (hpos : ∀ p ∈ l, 0 < p.2) (hne : l ≠ []) :
    (runAcked (tcp_azs_init c0) l).ca.rtt = (l.getLast hne).2.toNat
    ∧ (runAcked (tcp_azs_init c0) l).ca.rtt_min
        = (l.map fun p => p.2.toNat).foldl min TCP_AZS_INIT_RTT := by
  constructor
  · exact runAcked_rtt_eq l _ hpos hne
  · simpa [tcp_azs_init] using runAcked_rtt_min_eq l (tcp_azs_init c0) hpos

/-- C3 witness: two samples, 50000 then 70000 microseconds: `rtt` ends at
the last sample and `rtt_min` at the overall minimum. -/
theorem tcp_azs_rtt_tracking_witness :
    (runAcked (tcp_azs_init c0X) [(5, 50000), (2, 70000)]).ca.rtt = 70000
    ∧ (runAcked (tcp_azs_init c0X) [(5, 50000), (2, 70000)]).ca.rtt_min = 50000 := by
  have h := tcp_azs_rtt_tracking c0X [(5, 50000), (2, 70000)]
    (by simp) (by simp)
  simpa using h

/-- C4: in every reachable state, a `tcp_azs_pkts_acked` call whose RTT
sample is non-positive leaves both `rtt` and `rtt_min` unchanged (the
re-fold of `rtt` into `rtt_min` is a no-op because `rtt_min ≤ rtt` holds
in every reachable state). -/
theorem tcp_azs_pkts_acked_nonpos_frame (F : Conn → Nat → Nat → Conn)
    (hF : FallbackPreservesCa F) (c : Conn) (hc : ReachableFrom F c)
    (cnt : Nat) (rtt_us : Int) (hr : rtt_us ≤ 0) :
    (tcp_azs_pkts_acked c cnt rtt_us).ca.rtt = c.ca.rtt
    ∧ (tcp_azs_pkts_acked c cnt rtt_us).ca.rtt_min = c.ca.rtt_min := by
  have hinv := azs_reachable_inv F hF c hc
  have hnot : ¬ rtt_us > 0 := not_lt.mpr hr
  constructor
  · simp [tcp_azs_pkts_acked, hnot]
  · simp [tcp_azs_pkts_acked, hnot, min_eq_left hinv.1]

/-- C4 witness: at the concrete post-init state, a call with sample -1
leaves `rtt` and `rtt_min` at their prior values. -/
theorem tcp_azs_pkts_acked_nonpos_frame_witness :
    (tcp_azs_pkts_acked cInit 3 (-1)).ca.rtt = cInit.ca.rtt
    ∧ (tcp_azs_pkts_acked cInit 3 (-1)).ca.rtt_min = cInit.ca.rtt_min :=
  tcp_azs_pkts_acked_nonpos_frame Fid Fid_preserves cInit cInit_reachable
    3 (-1) (by decide)

/-- C5: in every reachable state, `rtt_min ≤ rtt`, and every single hook
invocation leaves `rtt_min` no larger than before. -/
theorem tcp_azs_min_rtt_props (F : Conn → Nat → Nat → Conn)
    (hF : FallbackPreservesCa F) (c : Conn) (hc : ReachableFrom F c)
    (op : Hook) :
    c.ca.rtt_min ≤ c.ca.rtt
    ∧ (hookStep F c op).ca.rtt_min ≤ c.ca.rtt_min :=
  ⟨(azs_reachable_inv F hF c hc).1, rttMin_step_le F hF c op⟩

/-- C5 witness: instantiated at the identity fallback, the concrete
post-init state and one concrete `pktsAcked` hook. -/
theorem tcp_azs_min_rtt_props_witness :
    cInit.ca.rtt_min ≤ cInit.ca.rtt
    ∧ (hookStep Fid cInit (Hook.pktsAcked 1 400)).ca.rtt_min ≤ cInit.ca.rtt_min :=
  tcp_azs_min_rtt_props Fid Fid_preserves cInit cInit_reachable
    (Hook.pktsAcked 1 400)
